import Mathlib

/-!
Shallow embedding of the `tower-abci` repository for specification checking.

The embedding covers:
* the `KVStore` example application (`examples/kvstore_38/main.rs`):
  its state, request dispatch (`KVStore::call`), and the individual
  handlers (`info`, `query`, `execute_tx`, `finalize_block`, `commit`,
  `extend_vote`, `verify_vote`, `compute_apphash`);
* models of the components whose source is not part of the checked tree
  (the request classifier, the four-queue priority dispatch engine, the
  connection server loop and engine shutdown), written from the
  specification text and marked `Modelled from the spec:`.

Rust `Bytes` values are lists of byte values (`Nat`, each `< 256`).
Rust `String` keys/values live in the store as their UTF-8 byte lists,
which is faithful because Rust `String` equality is byte equality.
Panics (`String::from_utf8(..).unwrap()`) are modelled by `Option`:
`none` is the panic branch.
-/

namespace TowerAbci

/-- Byte strings (`bytes::Bytes` / `Vec<u8>`): lists of byte values. -/
abbrev Bytes := List Nat

/-! ### UTF-8 validity, as checked by Rust `String::from_utf8`

Rust's `String::from_utf8` succeeds exactly on well-formed UTF-8
(RFC 3629): no surrogates, no overlong encodings, code points at most
U+10FFFF.  `utf8Expect` gives, for a leading byte, the list of allowed
ranges for the following continuation bytes; `utf8Run` consumes the
input byte by byte. -/

/-- Allowed `(lo, hi)` ranges of the continuation bytes that must follow
a leading byte `b`, or `none` if `b` cannot begin a UTF-8 sequence. -/
def utf8Expect (b : Nat) : Option (List (Nat × Nat)) :=
  if b < 0x80 then some []
  else if b < 0xC2 then none
  else if b ≤ 0xDF then some [(0x80, 0xBF)]
  else if b = 0xE0 then some [(0xA0, 0xBF), (0x80, 0xBF)]
  else if b ≤ 0xEC then some [(0x80, 0xBF), (0x80, 0xBF)]
  else if b = 0xED then some [(0x80, 0x9F), (0x80, 0xBF)]
  else if b ≤ 0xEF then some [(0x80, 0xBF), (0x80, 0xBF)]
  else if b = 0xF0 then some [(0x90, 0xBF), (0x80, 0xBF), (0x80, 0xBF)]
  else if b ≤ 0xF3 then some [(0x80, 0xBF), (0x80, 0xBF), (0x80, 0xBF)]
  else if b = 0xF4 then some [(0x80, 0x8F), (0x80, 0xBF), (0x80, 0xBF)]
  else none

/-- Run the UTF-8 acceptor: `exp` is the list of ranges the next bytes
must fall in before a fresh sequence may start. -/
def utf8Run : List (Nat × Nat) → List Nat → Bool
  | [], [] => true
  | [], b :: rest =>
    match utf8Expect b with
    | some exp => utf8Run exp rest
    | none => false
  | _ :: _, [] => false
  | (lo, hi) :: exp, b :: rest =>
    if lo ≤ b ∧ b ≤ hi then utf8Run exp rest else false

/-- `validUTF8 l` holds iff Rust `String::from_utf8(l)` returns `Ok`. -/
def validUTF8 (l : Bytes) : Bool := utf8Run [] l

/-! ### Auxiliary string/byte helpers used by the handlers -/

/-- UTF-8 encoding of a single code point. -/
def encodeChar (n : Nat) : List Nat :=
  if n < 0x80 then [n]
  else if n < 0x800 then [0xC0 + n / 64, 0x80 + n % 64]
  else if n < 0x10000 then
    [0xE0 + n / 4096, 0x80 + n / 64 % 64, 0x80 + n % 64]
  else
    [0xF0 + n / 262144, 0x80 + n / 4096 % 64, 0x80 + n / 64 % 64,
     0x80 + n % 64]

/-- The UTF-8 bytes of a Lean string (used for Rust string literals). -/
def strBytes (s : String) : Bytes :=
  s.data.flatMap fun c => encodeChar c.toNat

/-- `tx.split('=')` on the byte level: split on byte `0x3D`.  Since `=`
is ASCII and ASCII bytes never occur inside multi-byte UTF-8 sequences,
this agrees with Rust's `str::split('=')` on valid UTF-8 input. -/
def splitOnEq : Bytes → List Bytes
  | [] => [[]]
  | b :: rest =>
    if b = 61 then [] :: splitOnEq rest
    else
      match splitOnEq rest with
      | [] => [[b]]
      | s :: ss => (b :: s) :: ss

/-- Big-endian bytes of `n` as a `u64`, i.e. `(n as u64).to_be_bytes()`. -/
def u64BE (n : Nat) : Bytes :=
  [n / 2 ^ 56 % 256, n / 2 ^ 48 % 256, n / 2 ^ 40 % 256, n / 2 ^ 32 % 256,
   n / 2 ^ 24 % 256, n / 2 ^ 16 % 256, n / 2 ^ 8 % 256, n % 256]

/-! ### The store: `HashMap<String, String>` as an association list

Keys and values are kept as their UTF-8 bytes.  `insertStore` replaces
the binding of an existing key in place and appends a new key, so the
number of entries matches `HashMap::len`. -/

def insertStore : List (Bytes × Bytes) → Bytes → Bytes → List (Bytes × Bytes)
  | [], k, v => [(k, v)]
  | (k0, v0) :: rest, k, v =>
    if k0 = k then (k, v) :: rest else (k0, v0) :: insertStore rest k v

def lookupStore : List (Bytes × Bytes) → Bytes → Option Bytes
  | [], _ => none
  | (k0, v0) :: rest, k => if k0 = k then some v0 else lookupStore rest k

/-! ### Requests and responses (tendermint v0.38 ABCI, fields the
`KVStore` example reads) -/

/-- `Request`: closed tagged union of the ABCI v0.38 request kinds.
Payload fields the `KVStore` example never reads are omitted. -/
inductive Request
  | info
  | query (data : Bytes)
  | prepareProposal (txs : List Bytes)
  | processProposal
  | extendVote
  | verifyVoteExtension
  | finalizeBlock (txs : List Bytes)
  | commit
  | flush
  | echo
  | initChain
  | checkTx
  | listSnapshots
  | offerSnapshot
  | loadSnapshotChunk
  | applySnapshotChunk
deriving DecidableEq, Repr, Inhabited

/-- One event attribute, e.g. `("key", key).index()`. -/
structure EventAttribute where
  key : String
  value : Bytes
  index : Bool
deriving DecidableEq, Repr

/-- A `tendermint::abci::Event`. -/
structure Event where
  kind : String
  attributes : List EventAttribute
deriving DecidableEq, Repr

/-- `response::Info` fields set by `KVStore::info`. -/
structure InfoResponse where
  data : String
  version : String
  appVersion : Nat
  lastBlockHeight : Nat
  lastBlockAppHash : Bytes
deriving DecidableEq, Repr

/-- `response::Query` fields set by `KVStore::query`
(the rest are `Default::default()`). -/
structure QueryResponse where
  log : String
  key : Bytes
  value : Bytes
deriving DecidableEq, Repr

/-- `ExecTxResult` fields set by `KVStore::execute_tx`. -/
structure ExecTxResult where
  events : List Event
deriving DecidableEq, Repr

/-- `response::FinalizeBlock` fields set by `KVStore::finalize_block`. -/
structure FinalizeBlockResponse where
  events : List Event
  txResults : List ExecTxResult
  validatorUpdates : List Unit
  appHash : Bytes
deriving DecidableEq, Repr

/-- `response::Commit` fields set by `KVStore::commit`. -/
structure CommitResponse where
  data : Bytes
  retainHeight : Nat
deriving DecidableEq, Repr

/-- `response::ProcessProposal`. -/
inductive ProcessProposalResponse
  | accept
  | reject
deriving DecidableEq, Repr

/-- `response::VerifyVoteExtension`. -/
inductive VerifyVoteExtensionResponse
  | accept
  | reject
deriving DecidableEq, Repr

/-- `Response`: tagged union in 1:1 correspondence with `Request`.
Variants the example fills with `Default::default()` carry no payload
here. -/
inductive Response
  | info (r : InfoResponse)
  | query (r : QueryResponse)
  | prepareProposal (txs : List Bytes)
  | processProposal (r : ProcessProposalResponse)
  | extendVote (voteExtension : Bytes)
  | verifyVoteExtension (r : VerifyVoteExtensionResponse)
  | finalizeBlock (r : FinalizeBlockResponse)
  | commit (r : CommitResponse)
  | flush
  | echo
  | initChain
  | checkTx
  | listSnapshots
  | offerSnapshot
  | loadSnapshotChunk
  | applySnapshotChunk
deriving DecidableEq, Repr

/-! ### The `KVStore` application -/

/-- `KVStore`: in-memory, map-backed key-value store ABCI application. -/
structure KVStore where
  store : List (Bytes × Bytes)
  height : Nat
  app_hash : Bytes
deriving DecidableEq, Repr

instance : Inhabited KVStore := ⟨⟨[], 0, u64BE 0⟩⟩

namespace KVStore

/-- `KVStore::compute_apphash`: `(store.len() as u64).to_be_bytes()`. -/
def compute_apphash (s : KVStore) : Bytes := u64BE s.store.length

/-- `KVStore::info`. -/
def info (s : KVStore) : InfoResponse :=
  { data := "tower-abci-kvstore-example"
    version := "0.1.0"
    appVersion := 1
    lastBlockHeight := s.height
    lastBlockAppHash := s.app_hash }

/-- `KVStore::query`.  `String::from_utf8(query.to_vec()).unwrap()` is
the panic branch: `none` when the data is not valid UTF-8. -/
def query (s : KVStore) (data : Bytes) : Option QueryResponse :=
  if validUTF8 data then
    let pair : Bytes × String :=
      match lookupStore s.store data with
      | some value => (value, "exists")
      | none => ([], "does not exist")
    some { log := pair.2, key := data, value := pair.1 }
  else none

/-- `KVStore::execute_tx`.  `none` is the `String::from_utf8` panic
branch; otherwise the tx is split on `'='`, `(key, value)` are the
first two parts (or `(tx, tx)` when there is no `'='`), and the store
binding is inserted. -/
def execute_tx (s : KVStore) (tx : Bytes) :
    Option (ExecTxResult × KVStore) :=
  if validUTF8 tx then
    let parts := splitOnEq tx
    let kv : Bytes × Bytes :=
      match parts.head?, parts.get? 1 with
      | some key, some value => (key, value)
      | _, _ => (tx, tx)
    some
      ({ events :=
          [{ kind := "app"
             attributes :=
              [{ key := "key", value := kv.1, index := true },
               { key := "index_key", value := strBytes "index is working",
                 index := true },
               { key := "noindex_key",
                 value := strBytes "noindex is working", index := false }] }] },
       { s with store := insertStore s.store kv.1 kv.2 })
  else none

/-- The `for tx in block.txs` loop of `KVStore::finalize_block`:
execute each tx in order, threading the state, collecting the results.
A panic in any tx aborts the whole run (`none`). -/
def executeTxs (s : KVStore) : List Bytes → Option (List ExecTxResult × KVStore)
  | [] => some ([], s)
  | tx :: rest =>
    match s.execute_tx tx with
    | none => none
    | some (r, s1) =>
      match s1.executeTxs rest with
      | none => none
      | some (rs, s2) => some (r :: rs, s2)

/-- `KVStore::finalize_block`.  The app hash reported in the response is
computed from the state after the block's txs were applied; the
`app_hash` field of the state itself is not updated here. -/
def finalize_block (s : KVStore) (txs : List Bytes) :
    Option (FinalizeBlockResponse × KVStore) :=
  match s.executeTxs txs with
  | none => none
  | some (txResults, s1) =>
    some
      ({ events := [{ kind := "app",
                      attributes := [{ key := "num_tx",
                                       value := strBytes (toString txResults.length),
                                       index := true }] }],
         txResults := txResults,
         validatorUpdates := [],
         appHash := s1.compute_apphash }, s1)

/-- `KVStore::commit`: capture `retain_height` from the current height,
then set `app_hash` from the store and increment the height (`u32`). -/
def commit (s : KVStore) : CommitResponse × KVStore :=
  let retainHeight := s.height
  ({ data := [], retainHeight := retainHeight },
   { s with app_hash := s.compute_apphash, height := (s.height + 1) % 2 ^ 32 })

/-- `KVStore::extend_vote`. -/
def extend_vote (_s : KVStore) : Bytes := []

/-- `KVStore::verify_vote`. -/
def verify_vote (_s : KVStore) : VerifyVoteExtensionResponse :=
  VerifyVoteExtensionResponse.accept

/-- `KVStore::call` (`impl Service<Request> for KVStore`): the `match`
on the request building the response.  `none` is a panic of a handler;
the state component is the value of `self` after the call. -/
def call (s : KVStore) (req : Request) : Option (Response × KVStore) :=
  match req with
  | Request.info => some (Response.info s.info, s)
  | Request.query data =>
    (s.query data).map fun r => (Response.query r, s)
  | Request.prepareProposal txs => some (Response.prepareProposal txs, s)
  | Request.processProposal =>
    some (Response.processProposal ProcessProposalResponse.accept, s)
  | Request.extendVote => some (Response.extendVote s.extend_vote, s)
  | Request.verifyVoteExtension =>
    some (Response.verifyVoteExtension s.verify_vote, s)
  | Request.finalizeBlock txs =>
    (s.finalize_block txs).map fun p => (Response.finalizeBlock p.1, p.2)
  | Request.commit =>
    some (Response.commit (s.commit).1, (s.commit).2)
  | Request.flush => some (Response.flush, s)
  | Request.echo => some (Response.echo, s)
  | Request.initChain => some (Response.initChain, s)
  | Request.checkTx => some (Response.checkTx, s)
  | Request.listSnapshots => some (Response.listSnapshots, s)
  | Request.offerSnapshot => some (Response.offerSnapshot, s)
  | Request.loadSnapshotChunk => some (Response.loadSnapshotChunk, s)
  | Request.applySnapshotChunk => some (Response.applySnapshotChunk, s)

/-- `poll_ready`'s return type: `Poll<Result<(), BoxError>>`. -/
inductive Poll (α : Type)
  | ready (a : α)
  | pending
deriving DecidableEq, Repr

/-- `KVStore::poll_ready`: always `Poll::Ready(Ok(()))`, for every state
and context (the context argument is unused by the source). -/
def poll_ready (_s : KVStore) : Poll (Except String Unit) :=
  Poll.ready (Except.ok ())

/-- The future returned by `KVStore::call` resolves to `Ok(rsp)`: the
`async move { Ok(rsp) }.boxed()` wrapper around the computed response. -/
def callService (s : KVStore) (req : Request) :
    Option (Except String Response × KVStore) :=
  (s.call req).map fun p => (Except.ok p.1, p.2)

end KVStore

/-! ### Request/response variant tags -/

/-- The common tag alphabet of the `Request`/`Response` tagged unions. -/
inductive Kind
  | info
  | query
  | prepareProposal
  | processProposal
  | extendVote
  | verifyVoteExtension
  | finalizeBlock
  | commit
  | flush
  | echo
  | initChain
  | checkTx
  | listSnapshots
  | offerSnapshot
  | loadSnapshotChunk
  | applySnapshotChunk
deriving DecidableEq, Repr

/-- The variant of a `Request`. -/
def Request.kind : Request → Kind
  | Request.info => Kind.info
  | Request.query _ => Kind.query
  | Request.prepareProposal _ => Kind.prepareProposal
  | Request.processProposal => Kind.processProposal
  | Request.extendVote => Kind.extendVote
  | Request.verifyVoteExtension => Kind.verifyVoteExtension
  | Request.finalizeBlock _ => Kind.finalizeBlock
  | Request.commit => Kind.commit
  | Request.flush => Kind.flush
  | Request.echo => Kind.echo
  | Request.initChain => Kind.initChain
  | Request.checkTx => Kind.checkTx
  | Request.listSnapshots => Kind.listSnapshots
  | Request.offerSnapshot => Kind.offerSnapshot
  | Request.loadSnapshotChunk => Kind.loadSnapshotChunk
  | Request.applySnapshotChunk => Kind.applySnapshotChunk

/-- The variant of a `Response`. -/
def Response.kind : Response → Kind
  | Response.info _ => Kind.info
  | Response.query _ => Kind.query
  | Response.prepareProposal _ => Kind.prepareProposal
  | Response.processProposal _ => Kind.processProposal
  | Response.extendVote _ => Kind.extendVote
  | Response.verifyVoteExtension _ => Kind.verifyVoteExtension
  | Response.finalizeBlock _ => Kind.finalizeBlock
  | Response.commit _ => Kind.commit
  | Response.flush => Kind.flush
  | Response.echo => Kind.echo
  | Response.initChain => Kind.initChain
  | Response.checkTx => Kind.checkTx
  | Response.listSnapshots => Kind.listSnapshots
  | Response.offerSnapshot => Kind.offerSnapshot
  | Response.loadSnapshotChunk => Kind.loadSnapshotChunk
  | Response.applySnapshotChunk => Kind.applySnapshotChunk

/-- The UTF-8 precondition of the `KVStore` handlers: query data and
every transaction of a `FinalizeBlock` block must be valid UTF-8; all
other request kinds are unconditional. -/
def Request.utf8Ok : Request → Bool
  | Request.query data => validUTF8 data
  | Request.finalizeBlock txs => txs.all validUTF8
  | _ => true

/-- The two request kinds whose `KVStore` handlers take `&mut self` and
write the state (`execute_tx` via `finalize_block`, and `commit`). -/
def Request.mutates : Request → Bool
  | Request.finalizeBlock _ => true
  | Request.commit => true
  | _ => false

/-- Sequential processing of a request list by the application,
threading the state; `none` if any request panics. -/
def runSeq (s : KVStore) : List Request → Option (List Response × KVStore)
  | [] => some ([], s)
  | req :: rest =>
    match s.call req with
    | none => none
    | some (r, s1) =>
      match runSeq s1 rest with
      | none => none
      | some (rs, s2) => some (r :: rs, s2)

/-! ### The four categories and the classifier

The classifier lives in `src/request.rs` / `src/split.rs`, which are
declared by `src/lib.rs` but are not part of the checked tree, so it is
modelled from the specification. -/

/-- Category: one of the four fixed traffic classes. -/
inductive Category
  | consensus
  | mempool
  | snapshot
  | info
deriving DecidableEq, Repr

/-- Scheduling priority: Consensus > Mempool > Snapshot > Info. -/
def catPriority : Category → Nat
  | Category.consensus => 3
  | Category.mempool => 2
  | Category.snapshot => 1
  | Category.info => 0

/-- Modelled from the spec: the request classifier of `src/request.rs` /
`src/split.rs` (not in the checked tree).  Each request kind maps to
exactly one category; the category-agnostic health-check kinds
(`Echo`, `Flush`) are routed to Info by convention. -/
def classify : Request → Category
  | Request.initChain => Category.consensus
  | Request.prepareProposal _ => Category.consensus
  | Request.processProposal => Category.consensus
  | Request.extendVote => Category.consensus
  | Request.verifyVoteExtension => Category.consensus
  | Request.finalizeBlock _ => Category.consensus
  | Request.commit => Category.consensus
  | Request.checkTx => Category.mempool
  | Request.listSnapshots => Category.snapshot
  | Request.offerSnapshot => Category.snapshot
  | Request.loadSnapshotChunk => Category.snapshot
  | Request.applySnapshotChunk => Category.snapshot
  | Request.info => Category.info
  | Request.query _ => Category.info
  | Request.echo => Category.info
  | Request.flush => Category.info

/-! ### The four-queue priority dispatch engine (worker side)

`src/buffer4` is declared by `src/lib.rs` but not part of the checked
tree; the queue state and the worker's selection rule are modelled from
the specification.  Queues hold queue-slot ids (`Nat`). -/

/-- Modelled from the spec: the four independent queues of the dispatch
engine, one per category, holding queue-slot ids. -/
structure Queues where
  consensusQ : List Nat
  mempoolQ : List Nat
  snapshotQ : List Nat
  infoQ : List Nat
deriving DecidableEq, Repr

/-- The queue of a given category. -/
def Queues.get (q : Queues) : Category → List Nat
  | Category.consensus => q.consensusQ
  | Category.mempool => q.mempoolQ
  | Category.snapshot => q.snapshotQ
  | Category.info => q.infoQ

/-- The empty queue state. -/
def Queues.empty : Queues := ⟨[], [], [], []⟩

/-- FIFO send into the queue of a category. -/
def Queues.enqueue (q : Queues) (c : Category) (sid : Nat) : Queues :=
  match c with
  | Category.consensus => { q with consensusQ := q.consensusQ ++ [sid] }
  | Category.mempool => { q with mempoolQ := q.mempoolQ ++ [sid] }
  | Category.snapshot => { q with snapshotQ := q.snapshotQ ++ [sid] }
  | Category.info => { q with infoQ := q.infoQ ++ [sid] }

/-- Modelled from the spec: the worker's selection rule — take the head
of the highest-priority non-empty queue (Consensus, then Mempool, then
Snapshot, then Info); `none` when all four queues are empty. -/
def selectNext (q : Queues) : Option (Category × Nat × Queues) :=
  match q.consensusQ with
  | sid :: rest => some (Category.consensus, sid, { q with consensusQ := rest })
  | [] =>
    match q.mempoolQ with
    | sid :: rest => some (Category.mempool, sid, { q with mempoolQ := rest })
    | [] =>
      match q.snapshotQ with
      | sid :: rest => some (Category.snapshot, sid, { q with snapshotQ := rest })
      | [] =>
        match q.infoQ with
        | sid :: rest => some (Category.info, sid, { q with infoQ := rest })
        | [] => none

/-! ### Connection servers + dispatch engine as a transition system

The connection-server loop (`src/server.rs`) is not part of the checked
tree; it is modelled from the specification as a nondeterministic
interleaving of per-connection steps and worker steps, so that ordering
claims quantify over every interleaving.  The application is an
arbitrary deterministic function `app : Request → Response`. -/

/-- Modelled from the spec: one queue slot — the issuing connection, the
request, and its response channel (`none` while pending). -/
structure Slot where
  conn : Nat
  req : Request
  resp : Option Response
deriving DecidableEq, Repr

/-- Modelled from the spec: one connection session of the connection
server: frames not yet read, requests already submitted (in submission
order), the at-most-one outstanding slot, and the responses already
written back (in order). -/
structure Conn where
  pending : List Request
  sent : List Request
  inFlight : Option Nat
  received : List Response
deriving DecidableEq, Repr

/-- Modelled from the spec: the global state — all connection sessions,
the four queues, and all queue slots (a slot's id is its index). -/
structure Sys where
  conns : List Conn
  queues : Queues
  slots : List Slot
deriving DecidableEq, Repr

/-- Modelled from the spec: one transition of the system, for a fixed
application function `app`.  `submit` is steps 1–3 of the connection
loop (read a frame, classify, enqueue, start awaiting); `work` is one
worker iteration (select by priority, invoke the application, fulfill
the slot); `recv` is step 4 (write the response back, resume the
loop). -/
inductive Step (app : Request → Response) : Sys → Sys → Prop
  | submit (sys : Sys) (i : Nat) (c : Conn) (req : Request)
      (rest : List Request)
      (hc : sys.conns[i]? = some c)
      (hp : c.pending = req :: rest)
      (hf : c.inFlight = none) :
      Step app sys
        { conns := sys.conns.set i
            { c with pending := rest, sent := c.sent ++ [req],
                     inFlight := some sys.slots.length },
          queues := sys.queues.enqueue (classify req) sys.slots.length,
          slots := sys.slots ++ [{ conn := i, req := req, resp := none }] }
  | work (sys : Sys) (cat : Category) (sid : Nat) (q1 : Queues) (slot : Slot)
      (hs : selectNext sys.queues = some (cat, sid, q1))
      (hslot : sys.slots[sid]? = some slot)
      (hpend : slot.resp = none) :
      Step app sys
        { conns := sys.conns,
          queues := q1,
          slots := sys.slots.set sid { slot with resp := some (app slot.req) } }
  | recv (sys : Sys) (i : Nat) (c : Conn) (sid : Nat) (slot : Slot)
      (r : Response)
      (hc : sys.conns[i]? = some c)
      (hf : c.inFlight = some sid)
      (hslot : sys.slots[sid]? = some slot)
      (hr : slot.resp = some r) :
      Step app sys
        { sys with
          conns := sys.conns.set i
            ({ c with inFlight := none, received := c.received ++ [r] }) }

/-- Reachability: the reflexive-transitive closure of `Step app`. -/
def Reachable (app : Request → Response) : Sys → Sys → Prop :=
  Relation.ReflTransGen (Step app)

/-- The initial system for per-connection request scripts `reqss`:
nothing submitted, all queues and slots empty. -/
def Sys.init (reqss : List (List Request)) : Sys :=
  { conns := reqss.map fun reqs =>
      { pending := reqs, sent := [], inFlight := none, received := [] },
    queues := Queues.empty,
    slots := [] }

/-! ### Engine shutdown

`src/buffer4`'s close path is not part of the checked tree; modelled
from the specification: a closed engine rejects new submissions with a
"channel closed" error, close resolves every still-pending slot with a
"dispatch engine closed" error, and a terminated worker performs no
further application invocations. -/

/-- The state of one queue slot's response channel, engine view. -/
inductive SlotState
  | pending
  | done (r : Response)
  | failed (msg : String)
deriving DecidableEq, Repr

/-- Modelled from the spec: the engine-level state used for the
shutdown behavior — the closed flag, the queued (slot id, request)
pairs awaiting the worker, all slot channels, and the count of
application invocations performed so far. -/
structure Engine where
  closed : Bool
  queued : List (Nat × Request)
  slots : List SlotState
  apps : Nat
deriving DecidableEq, Repr

/-- Modelled from the spec: `enqueue(category, request)` — fails
immediately with a "channel closed" error when the engine is closed,
otherwise creates a fresh pending slot. -/
def Engine.submit (e : Engine) (req : Request) :
    Except String (Engine × Nat) :=
  if e.closed then Except.error "channel closed"
  else
    Except.ok
      ({ e with queued := e.queued ++ [(e.slots.length, req)],
                slots := e.slots ++ [SlotState.pending] },
       e.slots.length)

/-- Modelled from the spec: engine close — mark closed and resolve
every still-pending slot with a "dispatch engine closed" error. -/
def Engine.close (e : Engine) : Engine :=
  { closed := true,
    queued := [],
    slots := e.slots.map fun st =>
      match st with
      | SlotState.pending => SlotState.failed "dispatch engine closed"
      | st => st,
    apps := e.apps }

/-- Modelled from the spec: one worker iteration — a terminated (closed)
engine does nothing; otherwise the worker takes the next queued request,
invokes the application and fulfills the slot. -/
def Engine.workerStep (app : Request → Response) (e : Engine) : Engine :=
  if e.closed then e
  else
    match e.queued with
    | [] => e
    | (sid, req) :: rest =>
      { e with queued := rest,
               slots := e.slots.set sid (SlotState.done (app req)),
               apps := e.apps + 1 }

/-! ## Helper lemmas -/

/-- `execute_tx` returns normally exactly when the tx bytes are valid
UTF-8. -/
theorem execute_tx_isSome (s : KVStore) (tx : Bytes) :
    (s.execute_tx tx).isSome = validUTF8 tx := by
  unfold KVStore.execute_tx
  cases hv : validUTF8 tx <;> simp [hv]

/-- The tx loop of `finalize_block` returns normally exactly when every
tx of the block is valid UTF-8. -/
theorem executeTxs_isSome (s : KVStore) (txs : List Bytes) :
    (s.executeTxs txs).isSome = txs.all validUTF8 := by
  induction txs generalizing s with
  | nil => rfl
  | cons tx rest ih =>
    rw [List.all_cons, ← execute_tx_isSome s tx]
    unfold KVStore.executeTxs
    cases hE : s.execute_tx tx with
    | none => simp
    | some p =>
      obtain ⟨r, s1⟩ := p
      simp only [Option.isSome_some, Bool.true_and]
      rw [← ih s1]
      cases hR : s1.executeTxs rest with
      | none => simp
      | some q => simp

/-- `KVStore::call` returns normally exactly under the UTF-8
precondition on query data and block transactions. -/
theorem call_isSome_eq_utf8Ok (s : KVStore) (req : Request) :
    (s.call req).isSome = req.utf8Ok := by
  cases req
  case query data =>
    simp only [KVStore.call, KVStore.query, Request.utf8Ok, Option.isSome_map]
    cases hv : validUTF8 data <;> simp [hv]
  case finalizeBlock txs =>
    simp only [KVStore.call, KVStore.finalize_block, Request.utf8Ok,
      Option.isSome_map]
    rw [← executeTxs_isSome s txs]
    cases hR : s.executeTxs txs with
    | none => simp
    | some q => simp
  all_goals rfl

/-! ## Claims -/

/-- C1: for every request that `KVStore::call` answers, the response has
the tagged-union variant corresponding 1:1 to the request's variant. -/
theorem c1_response_variant_matches_request (s : KVStore) (req : Request)
    (r : Response) (s1 : KVStore) (h : s.call req = some (r, s1)) :
    r.kind = req.kind := by
  cases req
  case query data =>
    simp only [KVStore.call, Option.map_eq_some'] at h
    obtain ⟨q, -, hEq⟩ := h
    obtain ⟨rfl, rfl⟩ := Prod.mk.injEq .. ▸ hEq
    rfl
  case finalizeBlock txs =>
    simp only [KVStore.call, Option.map_eq_some'] at h
    obtain ⟨p, -, hEq⟩ := h
    obtain ⟨rfl, rfl⟩ := Prod.mk.injEq .. ▸ hEq
    rfl
  all_goals
    simp only [KVStore.call, Option.some.injEq, Prod.mk.injEq] at h
  all_goals obtain ⟨rfl, rfl⟩ := h
  all_goals rfl

/-- C1 witness: a `Commit` request on the default store is answered with
a `Commit` response. -/
theorem c1_witness :
    (Response.commit { data := [], retainHeight := 0 }).kind =
      Request.commit.kind :=
  c1_response_variant_matches_request default Request.commit
    (Response.commit { data := [], retainHeight := 0 })
    { store := [], height := 1, app_hash := [0, 0, 0, 0, 0, 0, 0, 0] }
    (by decide)

/-- C2: request processing is deterministic — two runs of any request
sequence from equal states produce identical responses and final
states — and the app hash installed by `Commit` is exactly the
big-endian 8-byte encoding of the number of entries in the store. -/
theorem c2_deterministic_processing (s1 s2 : KVStore) (reqs : List Request)
    (h : s1 = s2) :
    runSeq s1 reqs = runSeq s2 reqs ∧
    ∀ r s3, s1.commit = (r, s3) → s3.app_hash = u64BE s3.store.length := by
  subst h
  refine ⟨rfl, fun r s3 hc => ?_⟩
  have h2 : s3 = { s1 with app_hash := s1.compute_apphash,
                           height := (s1.height + 1) % 2 ^ 32 } :=
    (congrArg Prod.snd hc).symm
  subst h2
  rfl

/-- C2 witness: the two conjuncts at the default store and the sequence
consisting of one `Commit`. -/
theorem c2_witness :
    runSeq default [Request.commit] = runSeq default [Request.commit] ∧
    ∀ r s3, (default : KVStore).commit = (r, s3) →
      s3.app_hash = u64BE s3.store.length :=
  c2_deterministic_processing default default [Request.commit] rfl

/-- C7: the classifier is a deterministic, stateless pure function —
classifying the same request twice yields the same category, and every
request maps to exactly one of the four categories. -/
theorem c7_classifier_deterministic_total (r : Request) :
    classify r = classify r ∧ ∃! c : Category, classify r = c :=
  ⟨rfl, classify r, rfl, fun _ hc => hc.symm⟩

/-- C8: `KVStore::call` returns normally exactly under the UTF-8
precondition — valid UTF-8 query data and block transactions make the
handlers total, and any invalid input reaches the
`String::from_utf8(..).unwrap()` panic branch. -/
theorem c8_utf8_precondition (s : KVStore) (req : Request) :
    (s.call req).isSome = req.utf8Ok :=
  call_isSome_eq_utf8Ok s req

/-- C9: every request other than `FinalizeBlock` and `Commit` leaves the
whole `KVStore` state (store, height, app hash) unchanged. -/
theorem c9_non_mutating_requests_preserve_state (s : KVStore) (req : Request)
    (h : req.mutates = false) (r : Response) (s1 : KVStore)
    (hc : s.call req = some (r, s1)) : s1 = s := by
  cases req
  case finalizeBlock txs => exact absurd h (by simp [Request.mutates])
  case commit => exact absurd h (by simp [Request.mutates])
  case query data =>
    simp only [KVStore.call, Option.map_eq_some'] at hc
    obtain ⟨q, -, hEq⟩ := hc
    obtain ⟨-, rfl⟩ := Prod.mk.injEq .. ▸ hEq
    rfl
  all_goals
    simp only [KVStore.call, Option.some.injEq, Prod.mk.injEq] at hc
  all_goals obtain ⟨-, rfl⟩ := hc
  all_goals rfl

/-- C9 witness: a `Query` against a one-entry store leaves the state
unchanged. -/
theorem c9_witness :
    (⟨[([97], [98])], 5, u64BE 1⟩ : KVStore) = ⟨[([97], [98])], 5, u64BE 1⟩ :=
  c9_non_mutating_requests_preserve_state
    ⟨[([97], [98])], 5, u64BE 1⟩ (Request.query [97]) (by decide)
    (Response.query { log := "exists", key := [97], value := [98] })
    ⟨[([97], [98])], 5, u64BE 1⟩ (by decide)

/-- C10: the application never signals an error through the Service
error channel — `poll_ready` always answers `Ready(Ok(()))`, and under
the UTF-8 precondition the future returned by `call` resolves to
`Ok(response)`, never to `Err`. -/
theorem c10_no_service_error (s : KVStore) (req : Request)
    (h : req.utf8Ok = true) :
    s.poll_ready = KVStore.Poll.ready (Except.ok ()) ∧
    ∃ rsp s1, s.callService req = some (Except.ok rsp, s1) := by
  refine ⟨rfl, ?_⟩
  have hs : (s.call req).isSome = true := by
    rw [call_isSome_eq_utf8Ok, h]
  obtain ⟨p, hp⟩ := Option.isSome_iff_exists.mp hs
  exact ⟨p.1, p.2, by simp [KVStore.callService, hp]⟩

/-- C10 witness: the two conjuncts at the default store and an `Info`
request. -/
theorem c10_witness :
    Request.info.utf8Ok = true ∧
    ((default : KVStore).poll_ready = KVStore.Poll.ready (Except.ok ()) ∧
     ∃ rsp s1, (default : KVStore).callService Request.info =
       some (Except.ok rsp, s1)) :=
  ⟨by decide, c10_no_service_error default Request.info (by decide)⟩

/-- C4: whenever the worker's selection rule takes a request from
category `cat`, every queue of strictly higher priority (under
Consensus > Mempool > Snapshot > Info) is empty at selection time; a
lower-priority request is never dequeued while a higher-priority queue
is non-empty. -/
theorem c4_priority_selection (q : Queues) (cat : Category) (sid : Nat)
    (q1 : Queues) (h : selectNext q = some (cat, sid, q1))
    (c : Category) (hgt : catPriority cat < catPriority c) :
    q.get c = [] := by
  unfold selectNext at h
  repeat' split at h
  all_goals first
    | exact Option.noConfusion h
    | (simp only [Option.some.injEq, Prod.mk.injEq] at h
       obtain ⟨rfl, -, -⟩ := h
       cases c <;> simp_all [catPriority, Queues.get])

/-- C4 witness: with the Mempool and Info queues non-empty and the
others empty, selection takes from Mempool, and the only
strictly-higher-priority queue (Consensus) is empty. -/
theorem c4_witness :
    Queues.get ⟨[], [7], [], [9]⟩ Category.consensus = [] :=
  c4_priority_selection ⟨[], [7], [], [9]⟩ Category.mempool 7 ⟨[], [], [], [9]⟩
    (by decide) Category.consensus (by decide)

/-- C6: once the engine is closed, a newly submitted request fails
immediately with a "channel closed" error and the worker performs no
further application invocations; closing resolves every still-pending
queue slot with a "dispatch engine closed" error instead of leaving it
pending. -/
theorem c6_closed_engine (app : Request → Response) (e : Engine)
    (req : Request) (h : e.closed = true) :
    e.submit req = Except.error "channel closed" ∧
    e.workerStep app = e ∧
    (∀ e2 : Engine, ∀ st ∈ (Engine.close e2).slots, st ≠ SlotState.pending) ∧
    (∀ (e2 : Engine) (i : Nat), e2.slots[i]? = some SlotState.pending →
      (Engine.close e2).slots[i]? =
        some (SlotState.failed "dispatch engine closed")) := by
  refine ⟨by simp [Engine.submit, h], by simp [Engine.workerStep, h], ?_, ?_⟩
  · intro e2 st hst
    simp only [Engine.close, List.mem_map] at hst
    obtain ⟨a, -, rfl⟩ := hst
    cases a <;> simp
  · intro e2 i hi
    simp [Engine.close, List.getElem?_map, hi]

/-- C6 witness: the conclusion at a concrete closed engine with one
queued request. -/
theorem c6_witness :
    (⟨true, [(0, Request.flush)], [SlotState.pending], 0⟩ : Engine).submit
        Request.echo = Except.error "channel closed" ∧
    (⟨true, [(0, Request.flush)], [SlotState.pending], 0⟩ : Engine).workerStep
        (fun _ => Response.flush) =
      ⟨true, [(0, Request.flush)], [SlotState.pending], 0⟩ ∧
    (∀ e2 : Engine, ∀ st ∈ (Engine.close e2).slots, st ≠ SlotState.pending) ∧
    (∀ (e2 : Engine) (i : Nat), e2.slots[i]? = some SlotState.pending →
      (Engine.close e2).slots[i]? =
        some (SlotState.failed "dispatch engine closed")) :=
  c6_closed_engine (fun _ => Response.flush)
    ⟨true, [(0, Request.flush)], [SlotState.pending], 0⟩ Request.echo rfl

/-! ## Per-connection response ordering (C5) -/

/-- Every fulfilled slot holds exactly the application's response to its
own request. -/
def SlotsInv (app : Request → Response) (slots : List Slot) : Prop :=
  ∀ slot ∈ slots, ∀ r, slot.resp = some r → r = app slot.req

/-- Per-connection bookkeeping: with no request outstanding the
responses written back are exactly the application's responses to the
submitted requests, in order; with one outstanding slot they are the
responses to all submitted requests but the last, which is the
outstanding slot's request. -/
def ConnInv (app : Request → Response) (slots : List Slot) (c : Conn) :
    Prop :=
  (c.inFlight = none → c.received = c.sent.map app) ∧
  (∀ sid, c.inFlight = some sid →
    ∃ prev slot, slots[sid]? = some slot ∧
      c.sent = prev ++ [slot.req] ∧ c.received = prev.map app)

/-- The global invariant: slot fulfillment is correct and every
connection session satisfies its bookkeeping invariant. -/
def SysInv (app : Request → Response) (sys : Sys) : Prop :=
  SlotsInv app sys.slots ∧ ∀ c ∈ sys.conns, ConnInv app sys.slots c

/-- Appending a fresh slot preserves a connection's invariant. -/
theorem connInv_append (app : Request → Response) (slots : List Slot)
    (new : Slot) (c : Conn) (h : ConnInv app slots c) :
    ConnInv app (slots ++ [new]) c := by
  obtain ⟨h1, h2⟩ := h
  refine ⟨h1, fun sid hf => ?_⟩
  obtain ⟨prev, slot, hget, hsent, hrecv⟩ := h2 sid hf
  have hlt : sid < slots.length := (List.getElem?_eq_some.mp hget).1
  exact ⟨prev, slot, by rw [List.getElem?_append_left hlt]; exact hget,
    hsent, hrecv⟩

/-- Updating a slot's response channel (keeping its request) preserves a
connection's invariant. -/
theorem connInv_set_resp (app : Request → Response) (slots : List Slot)
    (sid : Nat) (slot : Slot) (hs : slots[sid]? = some slot)
    (r : Option Response) (c : Conn) (h : ConnInv app slots c) :
    ConnInv app (slots.set sid { slot with resp := r }) c := by
  obtain ⟨h1, h2⟩ := h
  refine ⟨h1, fun sid2 hf => ?_⟩
  obtain ⟨prev, slot2, hget, hsent, hrecv⟩ := h2 sid2 hf
  by_cases he : sid = sid2
  · subst he
    rw [hs] at hget
    obtain rfl : slot = slot2 := Option.some.inj hget
    have hlt : sid < slots.length := (List.getElem?_eq_some.mp hs).1
    exact ⟨prev, { slot with resp := r },
      List.getElem?_set_eq_of_lt _ hlt, hsent, hrecv⟩
  · exact ⟨prev, slot2, by rw [List.getElem?_set_ne he]; exact hget,
      hsent, hrecv⟩

/-- One step of the system preserves the global invariant. -/
theorem sysInv_step (app : Request → Response) (s t : Sys)
    (hstep : Step app s t) (hinv : SysInv app s) : SysInv app t := by
  obtain ⟨hslots, hconns⟩ := hinv
  cases hstep with
  | submit i c req rest hc hp hf =>
    constructor
    · intro slot hslot r hr
      rcases List.mem_append.mp hslot with h1 | h2
      · exact hslots slot h1 r hr
      · simp only [List.mem_singleton] at h2
        subst h2
        exact absurd hr (by simp)
    · intro c2 hc2
      rcases List.mem_or_eq_of_mem_set hc2 with h1 | h1
      · exact connInv_append app _ _ c2 (hconns c2 h1)
      · subst h1
        have hcm : c ∈ s.conns := by
          have h3 := List.getElem?_eq_some.mp hc
          obtain ⟨hlt, rfl⟩ := h3
          exact List.getElem_mem hlt
        obtain ⟨hnone, -⟩ := hconns c hcm
        refine ⟨fun hcontr => by simp at hcontr, fun sid hfl => ?_⟩
        have hsid : sid = s.slots.length := by
          simpa using hfl.symm
        subst hsid
        refine ⟨c.sent, { conn := i, req := req, resp := none }, by simp, by simp, ?_⟩
        exact hnone hf
  | work cat sid q1 slot hs hslot hpend =>
    constructor
    · intro slot2 hslot2 r hr
      rcases List.mem_or_eq_of_mem_set hslot2 with h1 | h1
      · exact hslots slot2 h1 r hr
      · subst h1
        simp only [Option.some.injEq] at hr
        subst hr
        rfl
    · intro c2 hc2
      exact connInv_set_resp app _ sid slot hslot _ c2 (hconns c2 hc2)
  | recv i c sid slot r hc hf hslot hr =>
    constructor
    · exact hslots
    · intro c2 hc2
      rcases List.mem_or_eq_of_mem_set hc2 with h1 | h1
      · exact hconns c2 h1
      · subst h1
        have hcm : c ∈ s.conns := by
          have h3 := List.getElem?_eq_some.mp hc
          obtain ⟨hlt, rfl⟩ := h3
          exact List.getElem_mem hlt
        obtain ⟨-, hsome⟩ := hconns c hcm
        obtain ⟨prev, slot2, hget, hsent, hrecv⟩ := hsome sid hf
        rw [hslot] at hget
        obtain rfl : slot = slot2 := Option.some.inj hget
        have hmem : slot ∈ s.slots := by
          have h3 := List.getElem?_eq_some.mp hslot
          obtain ⟨hlt, rfl⟩ := h3
          exact List.getElem_mem hlt
        have hresp : r = app slot.req := hslots slot hmem r hr
        refine ⟨fun _ => ?_, fun sid2 hcontr => by simp at hcontr⟩
        simp only [hsent, hrecv, hresp, List.map_append, List.map_cons,
          List.map_nil]

/-- The invariant holds in every initial system. -/
theorem sysInv_init (app : Request → Response) (reqss : List (List Request)) :
    SysInv app (Sys.init reqss) := by
  constructor
  · intro slot h
    exact absurd h (by simp [Sys.init])
  · intro c hc
    simp only [Sys.init, List.mem_map] at hc
    obtain ⟨reqs, -, rfl⟩ := hc
    exact ⟨fun _ => rfl, fun sid h => by simp at h⟩

/-- The invariant holds in every reachable system. -/
theorem sysInv_reachable (app : Request → Response) (s t : Sys)
    (hinit : SysInv app s) (hr : Reachable app s t) : SysInv app t := by
  induction hr with
  | refl => exact hinit
  | tail _ hstep ih => exact sysInv_step app _ _ hstep ih

/-- C5: in every system reachable from an initial one — under every
interleaving of connection and worker steps — each connection's
responses written back so far are exactly the application's responses
to the first `received.length` requests submitted on that connection,
in submission order. -/
theorem c5_per_connection_response_order (app : Request → Response)
    (reqss : List (List Request)) (sys : Sys)
    (hr : Reachable app (Sys.init reqss) sys)
    (i : Nat) (c : Conn) (hc : sys.conns[i]? = some c) :
    c.received = (c.sent.take c.received.length).map app := by
  have hinv := sysInv_reachable app _ sys (sysInv_init app reqss) hr
  have hmem : c ∈ sys.conns := by
    have h3 := List.getElem?_eq_some.mp hc
    obtain ⟨hlt, rfl⟩ := h3
    exact List.getElem_mem hlt
  obtain ⟨-, hconns⟩ := hinv
  obtain ⟨h1, h2⟩ := hconns c hmem
  cases hf : c.inFlight with
  | none =>
    rw [h1 hf, List.length_map, List.take_length]
  | some sid =>
    obtain ⟨prev, slot, -, hsent, hrecv⟩ := h2 sid hf
    rw [hrecv, hsent, List.length_map, List.take_left]

/-- C5 witness: the initial single-connection system, reachable in zero
steps, has its (empty) response list equal to the responses of its
(empty) submitted prefix. -/
theorem c5_witness :
    ([] : List Response) =
      ((([] : List Request)).take ([] : List Response).length).map
        (fun _ => Response.flush) :=
  c5_per_connection_response_order (fun _ => Response.flush)
    [[Request.echo]] (Sys.init [[Request.echo]])
    Relation.ReflTransGen.refl 0 ⟨[Request.echo], [], none, []⟩ (by decide)

end TowerAbci
